import Mathlib

/-!
Shallow embedding of the jess reactive UI toolkit (targoninc/jess):
`src/jess/signals.ts` (the `Signal` class, `compute`, `isSignal`,
`asSignal`) and the data-binding paths of `src/jess/templating.ts`
(`DomNode.attributes`, `DomNode.styles`, `DomNode.children`).

Subscriber callbacks are modelled by identity (numeric ids); a write to a
signal returns, besides the new state, the ordered trace of subscriber
invocations the setter performs, each carrying the `(newValue, changed)`
arguments of the call.
-/

namespace Jess

/-- Ordered association-list update mirroring the JS collection writes the
source uses (`Map.set`, `setAttribute`, `style[key] = v`): the value of the
first entry with a matching key is replaced in place, keeping order;
otherwise a fresh entry is appended at the end. -/
def setAssoc {κ α : Type} [DecidableEq κ] : List (κ × α) → κ → α → List (κ × α)
  | [], k, v => [(k, v)]
  | (k', v') :: rest, k, v =>
      if k' = k then (k, v) :: rest else (k', v') :: setAssoc rest k v

/-- One subscriber invocation performed by the `value` setter: the callback
identity, the `newValue` argument and the `changed` argument. -/
abbrev Invocation (T : Type) := Nat × T × Bool

/-- State of a `Signal<T>` (signals.ts, class `Signal`): the ordered unkeyed
callback array `_callbacks`, the keyed callback `Map` `_keyCallbacks`
(insertion-ordered, as JS Maps are), and the current `_value`. Callbacks
are identified by numeric ids. -/
structure SignalState (T : Type) where
  callbacks : List Nat
  keyCallbacks : List (String × Nat)
  value : T
  deriving DecidableEq

/-- Signal.subscribe (signals.ts): when `key` is neither undefined nor null,
`this._keyCallbacks.set(key, callback)` stores or overwrites the callback
under that key; otherwise the callback is pushed onto the unkeyed array.
The body performs no callback invocation, hence the empty trace. -/
def subscribe {T : Type} (s : SignalState T) (cb : Nat) (key : Option String) :
    SignalState T × List (Invocation T) :=
  (match key with
   | some k => { s with keyCallbacks := setAssoc s.keyCallbacks k cb }
   | none => { s with callbacks := s.callbacks ++ [cb] },
   [])

/-- Removal of the first identity-matching element of an array, mirroring
`indexOf(callback)` followed by `splice(index, 1)` when the index is
non-negative. -/
def removeFirstOcc : List Nat → Nat → List Nat
  | [], _ => []
  | x :: xs, c => if x = c then xs else x :: removeFirstOcc xs c

/-- Result of JS `Object.entries` applied to a `Map` instance: a Map keeps
its entries in internal slots, not as own enumerable properties, so
`Object.entries(map)` is the empty array regardless of the map's contents.
`Signal.unsubscribe` iterates exactly this. -/
def objectEntriesOfMap (_m : List (String × Nat)) : List (String × Nat) :=
  []

/-- Signal.unsubscribeKey (signals.ts): `this._keyCallbacks.delete(key)`. -/
def unsubscribeKey {T : Type} (s : SignalState T) (key : String) : SignalState T :=
  { s with keyCallbacks := s.keyCallbacks.filter (fun p => p.1 != key) }

/-- Signal.unsubscribe (signals.ts): removes the first identity match from
the unkeyed array (`indexOf` + `splice`), then loops over
`Object.entries(this._keyCallbacks)` calling `unsubscribeKey` on value
matches. Since `_keyCallbacks` is a `Map`, that loop runs over the empty
array (see `objectEntriesOfMap`) and removes nothing. -/
def unsubscribe {T : Type} (s : SignalState T) (cb : Nat) : SignalState T :=
  let s1 := { s with callbacks := removeFirstOcc s.callbacks cb }
  (objectEntriesOfMap s1.keyCallbacks).foldl
    (fun acc e => if e.2 = cb then unsubscribeKey acc e.1 else acc) s1

/-- Signal `value` setter (signals.ts): computes
`changed = this._value !== value`, stores the new value, then invokes every
unkeyed callback in array order and every keyed callback in Map iteration
(insertion) order, each with the arguments `(value, changed)`. Strict
JS inequality on the modelled values is inequality in `T`. -/
def setValue {T : Type} [DecidableEq T] (s : SignalState T) (v : T) :
    SignalState T × List (Invocation T) :=
  let changed := decide (s.value ≠ v)
  ({ s with value := v },
   (s.callbacks ++ s.keyCallbacks.map Prod.snd).map (fun c => (c, v, changed)))

/-- State of a `compute(valueFunction, ...signals)` network (signals.ts,
`compute`): the current values of the n source signals and the current
value of the derived output signal `out`. Source value types are unified
into one type, which the claims allow since only propagation matters. -/
structure ComputeState (α β : Type) where
  sources : List α
  out : β
  deriving DecidableEq

/-- Construction step of `compute`: `out` is seeded by evaluating the value
function once, immediately, over all sources' current values
(`valueFunction(...getValues())`). -/
def computeInit {α β : Type} (f : List α → β) (vs : List α) : ComputeState α β :=
  ⟨vs, f vs⟩

/-- Writing value `v` to source signal `i` of a compute network: the source's
setter stores `v` and computes `changed`, then fires the callback `compute`
subscribed on that source. With `changed = true` the callback re-evaluates
the value function over the current values of all sources and writes the
result to `out` (running out's own setter — the returned Bool records
whether that happened); with `changed = false` it returns without
recomputing or notifying. An out-of-range index leaves the state unchanged
(no such write exists in JS). -/
def writeSource {α β : Type} [DecidableEq α] (f : List α → β)
    (st : ComputeState α β) (i : Nat) (v : α) : ComputeState α β × Bool :=
  match st.sources.get? i with
  | none => (st, false)
  | some old =>
      let changed := decide (old ≠ v)
      let sources1 := st.sources.set i v
      if changed then (⟨sources1, f sources1⟩, true) else (⟨sources1, st.out⟩, false)

/-- A JS value as it flows through the variadic `attributes` / `styles`
argument lists: a string, a number, a boolean, or null. -/
inductive JsVal where
  | str (s : String)
  | num (n : Int)
  | boolv (b : Bool)
  | nullv
  deriving DecidableEq

/-- Even-branch body of `DomNode.attributes` (templating.ts) specialised to
literal values: consumes the argument list two at a time and performs
`setAttribute(key, value)` for each pair. The Signal-valued branch of the
source (immediate `setAttribute` plus an `onUpdate` assignment) is embedded
separately in `ElemSystem`; it is irrelevant to odd-arity calls, where no
pair is processed at all. -/
def applyAttrPairs : List (JsVal × JsVal) → List JsVal → List (JsVal × JsVal)
  | attrs, k :: v :: rest => applyAttrPairs (setAssoc attrs k v) rest
  | attrs, _ => attrs

/-- Message of the arity error `DomNode.attributes` raises. -/
def attrArityError : String :=
  "Invalid number of arguments for attributes. Must be even. (key, value, key, value, ...)"

/-- Message of the arity error `DomNode.styles` raises. -/
def styleArityError : String :=
  "Invalid number of arguments for styles. Must be even. (key, value, key, value, ...)"

/-- Message of the key-type error `DomNode.styles` raises on a non-string key. -/
def styleKeyError : String :=
  "Invalid key type for styles. Must be a string."

/-- DomNode.attributes (templating.ts): the arity check
`arguments.length % 2 === 0` runs before anything touches the element;
an odd count throws immediately, returning the element's attribute map
untouched together with the error. An even count applies every pair. -/
def attributesRun (attrs : List (JsVal × JsVal)) (args : List JsVal) :
    List (JsVal × JsVal) × Option String :=
  if args.length % 2 = 0 then (applyAttrPairs attrs args, none)
  else (attrs, some attrArityError)

/-- Even-branch body of `DomNode.styles` specialised to literal values: for
each pair the key's constructor is checked first — a non-string key throws
the key-type error (a null key crashes even earlier, reading `.constructor`
of null), leaving the style map as mutated so far — then
`style[key] = value` is performed. -/
def applyStylePairs (sty : List (String × JsVal)) :
    List JsVal → List (String × JsVal) × Option String
  | [] => (sty, none)
  | JsVal.str ks :: v :: rest => applyStylePairs (setAssoc sty ks v) rest
  | JsVal.nullv :: _ :: _ =>
      (sty, some "TypeError: Cannot read properties of null (reading constructor)")
  | _ :: _ :: _ => (sty, some styleKeyError)
  | [_] => (sty, none)

/-- DomNode.styles (templating.ts): the arity check runs first, before any
pair is processed; an odd count throws the styles arity error with the
element untouched, an even count runs the pair loop. -/
def stylesRun (sty : List (String × JsVal)) (args : List JsVal) :
    List (String × JsVal) × Option String :=
  if args.length % 2 = 0 then applyStylePairs sty args
  else (sty, some styleArityError)

/-- Value a child-binding Signal can emit, as `DomNode.children`'s
subscription callback classifies it: a realized element (`isValidElement`
true), a `DomNode` builder whose `build()` yields an element, null, or some
other non-null value that is neither. Elements are identified by ids. -/
inductive ChildVal where
  | elem (id : Nat)
  | builder (id : Nat)
  | nullv
  | other (id : Nat)
  deriving DecidableEq

/-- Replacement of the first occurrence, mirroring
`parent.replaceChild(newNode, oldNode)` on the parent's child list (the
binding keeps `childNode` pointing at the node it last inserted, so the
old node is present). -/
def replaceFirst : List Nat → Nat → Nat → List Nat
  | [], _, _ => []
  | x :: xs, old, nw => if x = old then nw :: xs else x :: replaceFirst xs old nw

/-- Subscription callback of a Signal child binding (templating.ts,
`DomNode.children`): given the parent's child list and the currently bound
node `cur`, an emitted element replaces `cur` in the tree; an emitted
builder is built and replaces `cur`; any other non-null value only logs the
`stack` diagnostic (the returned flag) and leaves the tree untouched; an
emitted null crashes with a TypeError, because after `isValidElement`
fails the code reads `newValue.constructor` on null. -/
def childUpdate (cs : List Nat) (cur : Nat) :
    ChildVal → Except String (List Nat × Nat × Bool)
  | ChildVal.elem i => Except.ok (replaceFirst cs cur i, i, false)
  | ChildVal.builder i => Except.ok (replaceFirst cs cur i, i, false)
  | ChildVal.nullv =>
      Except.error "TypeError: Cannot read properties of null (reading constructor)"
  | ChildVal.other _ => Except.ok (cs, cur, true)

/-- Closure a binding site stores: re-apply an attribute or a style with the
incoming value. -/
inductive BoundCb where
  | setAttr (key : String)
  | setStyle (key : String)
  deriving DecidableEq

/-- Closed system of one element and one bound signal, for the Signal-valued
branches of `DomNode.attributes` and `DomNode.styles`: the element's
attribute and style maps, the signal's current value, its `_callbacks`
array and `_keyCallbacks` map (holding binding closures), and the plain
`onUpdate` data property the two binding sites assign. The current
`Signal` class declares no `onUpdate` accessor, so that assignment creates
an inert own property. -/
structure ElemSystem (T : Type) where
  attrs : List (String × T)
  styleMap : List (String × T)
  sigValue : T
  sigCallbacks : List BoundCb
  sigKeyCallbacks : List (String × BoundCb)
  sigOnUpdateProp : Option BoundCb
  deriving DecidableEq

/-- Effect of running a stored binding closure with value `v`. -/
def runBoundCb {T : Type} (st : ElemSystem T) (cb : BoundCb) (v : T) : ElemSystem T :=
  match cb with
  | BoundCb.setAttr k => { st with attrs := setAssoc st.attrs k v }
  | BoundCb.setStyle k => { st with styleMap := setAssoc st.styleMap k v }

/-- Signal branch of `DomNode.attributes` for one `(key, signal)` pair:
`setAttribute(key, value.value)` applies the current value immediately,
then `value.onUpdate = newValue => setAttribute(key, newValue)` assigns the
update closure to the plain `onUpdate` property. -/
def bindAttributeSignal {T : Type} [DecidableEq T] (st : ElemSystem T)
    (key : String) : ElemSystem T :=
  { st with attrs := setAssoc st.attrs key st.sigValue,
            sigOnUpdateProp := some (BoundCb.setAttr key) }

/-- Signal branch of `DomNode.styles` for one `(key, signal)` pair:
`style[key] = value.value` applies the current value immediately, then
`value.onUpdate = newValue => style[key] = newValue` assigns the update
closure to the plain `onUpdate` property. -/
def bindStyleSignal {T : Type} [DecidableEq T] (st : ElemSystem T)
    (key : String) : ElemSystem T :=
  { st with styleMap := setAssoc st.styleMap key st.sigValue,
            sigOnUpdateProp := some (BoundCb.setStyle key) }

/-- Write to the bound signal inside an `ElemSystem`: the `value` setter of
the current `Signal` class stores the value, then invokes only the
`_callbacks` array and the `_keyCallbacks` map entries. It never reads an
`onUpdate` own property — the class has no such accessor — so closures
parked there do not run. -/
def elemSigWrite {T : Type} [DecidableEq T] (st : ElemSystem T) (v : T) :
    ElemSystem T :=
  let st1 := { st with sigValue := v }
  (st1.sigCallbacks ++ st1.sigKeyCallbacks.map Prod.snd).foldl
    (fun acc cb => runBoundCb acc cb v) st1

/-- A JS value as `isSignal` / `asSignal` (signals.ts) see it: a `Signal`
instance created by `signal(inner)` (carrying the readonly marker field
set to "jess-signal"), a plain object exposing a marker field of its own,
a plain object without one, null, or a string primitive. -/
inductive JVal where
  | sigNew (inner : JVal)
  | objWithMarker (marker : String)
  | objPlain
  | nullv
  | str (s : String)
  deriving DecidableEq

/-- isSignal (signals.ts): optional-chained read of the marker field
compared against "jess-signal". Signal instances always carry it; a plain
object matches exactly when its own marker field holds that string; null
and plain values produce undefined and fail the comparison. -/
def isSignal : JVal → Bool
  | JVal.sigNew _ => true
  | JVal.objWithMarker m => m == "jess-signal"
  | _ => false

/-- asSignal (signals.ts): a value failing `isSignal` is wrapped by
`signal(obj)` into a fresh Signal instance; a value passing `isSignal` is
returned unchanged. -/
def asSignal (x : JVal) : JVal :=
  if isSignal x then x else JVal.sigNew x

end Jess

namespace Jess

/-- The first-occurrence removal leaves a list without the element unchanged. -/
theorem removeFirstOcc_of_not_mem (l : List Nat) (c : Nat) (h : c ∉ l) :
    removeFirstOcc l c = l := by
  induction l with
  | nil => rfl
  | cons x xs ih =>
      have hx : ¬ x = c := fun he => h (he ▸ List.mem_cons_self x xs)
      have hxs : c ∉ xs := fun hm => h (List.mem_cons_of_mem _ hm)
      simp [removeFirstOcc, hx, ih hxs]

/-- Entries of a double update under the same key: every entry is either the
new `(k, v2)` pair or an entry of the original list — the first update's
`(k, v1)` entry is exactly the one the second update overwrites. -/
theorem setAssoc_setAssoc_mem {κ α : Type} [DecidableEq κ]
    (m : List (κ × α)) (k : κ) (v1 v2 : α) :
    ∀ e ∈ setAssoc (setAssoc m k v1) k v2, e = (k, v2) ∨ e ∈ m := by
  induction m with
  | nil =>
      intro e he
      simp [setAssoc] at he
      simp [he]
  | cons p rest ih =>
      obtain ⟨k', v'⟩ := p
      intro e he
      by_cases hk : k' = k
      · subst hk
        simp only [setAssoc, if_pos rfl] at he
        rcases List.mem_cons.mp he with h | h
        · exact Or.inl h
        · exact Or.inr (List.mem_cons_of_mem _ h)
      · simp only [setAssoc, if_neg hk] at he
        rcases List.mem_cons.mp he with h | h
        · exact Or.inr (h ▸ List.mem_cons_self _ _)
        · rcases ih e h with h' | h'
          · exact Or.inl h'
          · exact Or.inr (List.mem_cons_of_mem _ h')

/-- The written pair is present after a `setAssoc` update. -/
theorem setAssoc_self_mem {κ α : Type} [DecidableEq κ]
    (m : List (κ × α)) (k : κ) (v : α) :
    (k, v) ∈ setAssoc m k v := by
  induction m with
  | nil => simp [setAssoc]
  | cons p rest ih =>
      obtain ⟨k', v'⟩ := p
      by_cases hk : k' = k
      · simp [setAssoc, hk]
      · simp only [setAssoc, if_neg hk]
        exact List.mem_cons_of_mem _ ih

/-- C1: after `s.value = v`, reading `s.value` returns `v`, and the setter's
invocation trace is exactly the unkeyed subscribers in subscription order
followed by the keyed subscribers in map insertion order — each invoked
exactly once, with arguments `(v, changed)` where `changed` is the strict
inequality between the previous value and `v`. -/
theorem signal_write_spec {T : Type} [DecidableEq T] (s : SignalState T) (v : T) :
    (setValue s v).1.value = v ∧
    (setValue s v).2 =
      (s.callbacks ++ s.keyCallbacks.map Prod.snd).map
        (fun c => (c, v, decide (s.value ≠ v))) :=
  ⟨rfl, rfl⟩

/-- C9: `subscribe` performs no invocation — its trace is empty — and leaves
the signal's current value unchanged, whether or not a key is given. -/
theorem subscribe_no_invocation {T : Type} (s : SignalState T) (cb : Nat)
    (key : Option String) :
    (subscribe s cb key).2 = [] ∧ (subscribe s cb key).1.value = s.value := by
  cases key <;> exact ⟨rfl, rfl⟩

/-- C10: unsubscribing a callback that is neither in the unkeyed list nor
stored under any key leaves the signal state exactly as it was. -/
theorem unsubscribe_absent_noop {T : Type} (s : SignalState T) (cb : Nat)
    (h1 : cb ∉ s.callbacks) (_h2 : ∀ e ∈ s.keyCallbacks, e.2 ≠ cb) :
    unsubscribe s cb = s := by
  unfold unsubscribe
  simp [objectEntriesOfMap, removeFirstOcc_of_not_mem _ _ h1]

/-- Witness for C10 at a concrete state: callback 3 is absent, so
`unsubscribe` changes nothing. -/
theorem unsubscribe_absent_noop_witness :
    unsubscribe (⟨[1], [("k", 2)], (0 : Nat)⟩ : SignalState Nat) 3
      = ⟨[1], [("k", 2)], 0⟩ :=
  unsubscribe_absent_noop _ 3 (by decide) (by decide)

/-- C3, code evaluated at the failing input: subscribe callback 7 under key
"k", then `unsubscribe(7)`. The keyed entry survives — `Object.entries` of
the `_keyCallbacks` Map yields nothing to sweep — and the next write still
invokes callback 7. -/
theorem unsubscribe_keyed_entry_survives :
    (unsubscribe (subscribe (⟨[], [], 0⟩ : SignalState Nat) 7 (some "k")).1 7).keyCallbacks
        = [("k", 7)] ∧
    (setValue (unsubscribe (subscribe (⟨[], [], (0 : Nat)⟩ : SignalState Nat) 7 (some "k")).1 7) 1).2
        = [(7, 1, true)] := by
  constructor <;> rfl

/-- C5: subscribing `cb1` and then `cb2` under the same key `k` replaces the
earlier callback — the trace of the next write contains no invocation of
`cb1` but does contain one of `cb2` (assuming `cb1` is not also registered
unkeyed or under another key). -/
theorem keyed_subscribe_override {T : Type} [DecidableEq T] (s : SignalState T)
    (cb1 cb2 : Nat) (k : String) (v : T)
    (h1 : cb1 ∉ s.callbacks)
    (h2 : ∀ e ∈ s.keyCallbacks, e.2 ≠ cb1)
    (h3 : cb1 ≠ cb2) :
    (∀ inv ∈ (setValue (subscribe (subscribe s cb1 (some k)).1 cb2 (some k)).1 v).2,
        inv.1 ≠ cb1) ∧
    ∃ inv ∈ (setValue (subscribe (subscribe s cb1 (some k)).1 cb2 (some k)).1 v).2,
        inv.1 = cb2 := by
  have hstate : (subscribe (subscribe s cb1 (some k)).1 cb2 (some k)).1
      = { s with keyCallbacks := setAssoc (setAssoc s.keyCallbacks k cb1) k cb2 } := rfl
  rw [hstate]
  constructor
  · intro inv hinv
    simp only [setValue, List.mem_map, List.mem_append] at hinv
    obtain ⟨c, hc, hceq⟩ := hinv
    subst hceq
    rcases hc with hcl | hck
    · exact fun he => h1 (he ▸ hcl)
    · obtain ⟨e, he, hesnd⟩ := hck
      subst hesnd
      rcases setAssoc_setAssoc_mem s.keyCallbacks k cb1 cb2 e he with h | h
      · rw [h]
        exact fun hh => h3 hh.symm
      · exact h2 e h
  · refine ⟨(cb2, v, decide (s.value ≠ v)), ?_, rfl⟩
    simp only [setValue, List.mem_map, List.mem_append]
    exact ⟨cb2, Or.inr ⟨(k, cb2), setAssoc_self_mem _ _ _, rfl⟩, rfl⟩

/-- Witness for C5: on a fresh signal, after subscribing callback 1 then
callback 2 under key "k", the write trace invokes 2 but never 1. -/
theorem keyed_subscribe_override_witness :
    (∀ inv ∈ (setValue (subscribe (subscribe (⟨[], [], 0⟩ : SignalState Nat) 1 (some "k")).1 2 (some "k")).1 5).2,
        inv.1 ≠ 1) ∧
    ∃ inv ∈ (setValue (subscribe (subscribe (⟨[], [], 0⟩ : SignalState Nat) 1 (some "k")).1 2 (some "k")).1 5).2,
        inv.1 = 2 :=
  keyed_subscribe_override _ 1 2 "k" 5 (by decide) (by decide) (by decide)

/-- C2: the output of `compute` is seeded with the value function applied to
the sources' current values; a write to any source with a different value
(changed = true) sets the output to the function re-evaluated over the
current values of all sources and runs the output's setter; a write with
the same value (changed = false) leaves the output unrecomputed and
unnotified. -/
theorem compute_spec {α β : Type} [DecidableEq α] (f : List α → β) (vs : List α)
    (st : ComputeState α β) (i : Nat) (v old : α)
    (h : st.sources.get? i = some old) :
    (computeInit f vs).out = f vs ∧
    (old ≠ v →
      writeSource f st i v = (⟨st.sources.set i v, f (st.sources.set i v)⟩, true)) ∧
    (old = v →
      writeSource f st i v = (⟨st.sources.set i v, st.out⟩, false)) := by
  refine ⟨rfl, ?_, ?_⟩
  · intro hne
    unfold writeSource
    rw [h]
    simp [hne]
  · intro heq
    unfold writeSource
    rw [h]
    simp [heq]

/-- Witness for C2 on a concrete network: summing two sources seeded at
[1, 2], writing 5 into source 0 recomputes the output to 7 and notifies. -/
theorem compute_spec_witness :
    writeSource (fun l : List Nat => l.foldl (· + ·) 0) ⟨[1, 2], 3⟩ 0 5
      = (⟨[5, 2], 7⟩, true) :=
  (compute_spec (fun l : List Nat => l.foldl (· + ·) 0) [1, 2]
    ⟨[1, 2], 3⟩ 0 5 1 rfl).2.1 (by decide)

/-- C6: an odd-length argument list makes both `attributes` and `styles`
throw their arity error synchronously, with the element's attribute map and
style map left exactly as they were — the parity check precedes any
mutation. -/
theorem odd_arity_raises_and_leaves_element
    (attrs : List (JsVal × JsVal)) (sty : List (String × JsVal))
    (args : List JsVal) (h : args.length % 2 = 1) :
    attributesRun attrs args = (attrs, some attrArityError) ∧
    stylesRun sty args = (sty, some styleArityError) := by
  unfold attributesRun stylesRun
  simp [h]

/-- Witness for C6 at the spec's own example shape: the three-argument call
`attributes("a", 1, "b")` (and the same list given to `styles`) errors and
leaves the element untouched. -/
theorem odd_arity_witness :
    attributesRun [] [JsVal.str "a", JsVal.num 1, JsVal.str "b"]
        = ([], some attrArityError) ∧
    stylesRun [] [JsVal.str "a", JsVal.num 1, JsVal.str "b"]
        = ([], some styleArityError) :=
  odd_arity_raises_and_leaves_element [] []
    [JsVal.str "a", JsVal.num 1, JsVal.str "b"] (by decide)

/-- C7, code evaluated at the failing input: with element 5 the bound child,
a Signal emission of null makes the child-binding callback throw a
TypeError (reading `.constructor` of null) instead of logging. A non-null
invalid value is indeed only logged, with the child list untouched, and an
element emission replaces the bound child in place. -/
theorem child_signal_null_throws :
    childUpdate [5] 5 ChildVal.nullv
        = Except.error "TypeError: Cannot read properties of null (reading constructor)" ∧
    childUpdate [5] 5 (ChildVal.other 9) = Except.ok ([5], 5, true) ∧
    childUpdate [5] 5 (ChildVal.elem 9) = Except.ok ([9], 9, false) :=
  ⟨rfl, rfl, rfl⟩

/-- C4, code evaluated at the failing input: binding a signal currently
holding "x" as an attribute value (and as a style value) applies "x" to the
element immediately, but a subsequent write of "y" to the signal leaves the
attribute (and the style) at "x" — the binding closure sits in the inert
`onUpdate` property, which the signal's setter never invokes — even though
the signal's own value does become "y". -/
theorem attribute_style_binding_not_reactive :
    (bindAttributeSignal (⟨[], [], "x", [], [], none⟩ : ElemSystem String) "a").attrs
        = [("a", "x")] ∧
    (elemSigWrite (bindAttributeSignal (⟨[], [], "x", [], [], none⟩ : ElemSystem String) "a") "y").attrs
        = [("a", "x")] ∧
    (elemSigWrite (bindAttributeSignal (⟨[], [], "x", [], [], none⟩ : ElemSystem String) "a") "y").sigValue
        = "y" ∧
    (bindStyleSignal (⟨[], [], "x", [], [], none⟩ : ElemSystem String) "color").styleMap
        = [("color", "x")] ∧
    (elemSigWrite (bindStyleSignal (⟨[], [], "x", [], [], none⟩ : ElemSystem String) "color") "y").styleMap
        = [("color", "x")] :=
  ⟨rfl, rfl, rfl, rfl, rfl⟩

/-- C8: `asSignal` always yields a value satisfying `isSignal`; on any value
already satisfying `isSignal` it is the identity; and it is idempotent. -/
theorem asSignal_isSignal_idempotent (x s : JVal) (hs : isSignal s = true) :
    isSignal (asSignal x) = true ∧ asSignal s = s ∧
    asSignal (asSignal x) = asSignal x := by
  have hwrap : ∀ y : JVal, isSignal (asSignal y) = true := by
    intro y
    unfold asSignal
    by_cases h : isSignal y = true
    · rw [if_pos h]
      exact h
    · rw [if_neg h]
      rfl
  have hid : ∀ y : JVal, isSignal y = true → asSignal y = y := by
    intro y hy
    unfold asSignal
    rw [if_pos hy]
  exact ⟨hwrap x, hid s hs, hid _ (hwrap x)⟩

/-- Witness for C8: wrapping a plain object yields a signal, and a real
Signal instance passes through `asSignal` unchanged. -/
theorem asSignal_witness :
    isSignal (asSignal JVal.objPlain) = true ∧
    asSignal (JVal.sigNew JVal.objPlain) = JVal.sigNew JVal.objPlain ∧
    asSignal (asSignal JVal.objPlain) = asSignal JVal.objPlain :=
  asSignal_isSignal_idempotent JVal.objPlain (JVal.sigNew JVal.objPlain) rfl

end Jess
